import Mathlib

/-
  Shallow embedding of the EthervoxAI MicroPython core:
    implementations/micropython/ethervoxai/core/model_manager.py
    implementations/micropython/ethervoxai/core/inference_engine.py

  Conventions used throughout:
  - Python ints are Nat/Int; sizes keep the source units (KB fields named
    *_kb, raw byte counts named *_bytes or *_len).
  - The ambient memory snapshot gc.mem_free() is an explicit argument
    (mem_free_bytes) of every operation that reads it, since it is an
    external collaborator of the manager.
  - The MicroPython OrderedDict loaded_models is a list of entries, front =
    oldest insertion/use, back = most recent; this is exactly the order the
    OrderedDict maintains (del + re-insert moves to the back, next(iter(..))
    yields the front).
  - Ghost instrumentation (not in the source, added only to observe the
    behaviour of the source): ModelData.serial records which loader invocation
    constructed the object (object identity), ModelManager.load_counter
    counts loader invocations, CacheEntry.last_used / inserted_at and
    ModelManager.clock record the recency bookkeeping that the OrderedDict
    keeps implicitly through its ordering.  None of these fields influence
    any branch of any operation.
-/

/-- Descriptor of a catalog model (source: ModelInfo namedtuple,
model_manager.py lines 30-33).  Sizes are in KB as in the source. -/
structure ModelInfo where
  name : String
  size_kb : Nat
  type : String
  quantization : String
  min_memory_kb : Nat
  performance_tier : String
  capabilities : List String
  file_path : String
deriving Repr, DecidableEq

/-- Result of a compatibility check (source: CompatibilityResult namedtuple,
model_manager.py lines 36-38).  memory_required is in KB as in the source. -/
structure CompatibilityResult where
  compatible : Bool
  reason : String
  memory_required : Nat
  performance_impact : String
deriving Repr, DecidableEq

/-- The model catalog built in ModelManager._build_model_catalog
(model_manager.py lines 85-149), in insertion order. -/
def build_model_catalog : List (String × ModelInfo) :=
  [ ("wake-word-tiny",
      { name := "wake-word-tiny", size_kb := 8, type := "wake_word",
        quantization := "4bit", min_memory_kb := 20, performance_tier := "low",
        capabilities := ["wake_word_detection"],
        file_path := "models/wake_word_tiny.bin" }),
    ("command-classifier",
      { name := "command-classifier", size_kb := 45, type := "classification",
        quantization := "8bit", min_memory_kb := 80, performance_tier := "medium",
        capabilities := ["command_recognition", "intent_classification"],
        file_path := "models/command_classifier.bin" }),
    ("tinyllama-pico",
      { name := "tinyllama-pico", size_kb := 200, type := "language_model",
        quantization := "4bit", min_memory_kb := 220, performance_tier := "high",
        capabilities := ["text_generation", "conversation", "qa"],
        file_path := "models/tinyllama_pico.bin" }),
    ("microllama",
      { name := "microllama", size_kb := 80, type := "language_model",
        quantization := "4bit", min_memory_kb := 120, performance_tier := "medium",
        capabilities := ["simple_responses", "basic_qa"],
        file_path := "models/microllama.bin" }),
    ("vad-micro",
      { name := "vad-micro", size_kb := 15, type := "audio_classification",
        quantization := "8bit", min_memory_kb := 30, performance_tier := "low",
        capabilities := ["voice_activity_detection"],
        file_path := "models/vad_micro.bin" }) ]

/-- The dict built by ModelManager._load_model_from_file (model_manager.py
lines 302-331).  weights_len is the length of the simulated weights
bytearray (size_kb * 1024).  The metadata sub-dict (version, timestamp,
checksum placeholders) is omitted: no operation reads it.  serial is ghost
instrumentation recording which loader invocation built this object. -/
structure ModelData where
  name : String
  type : String
  quantization : String
  size_kb : Nat
  capabilities : List String
  weights_len : Nat
  serial : Nat
deriving Repr, DecidableEq

/-- One slot of the loaded_models OrderedDict: the key and the stored
model_data dict.  last_used and inserted_at are ghost counters mirroring
the recency order that the OrderedDict keeps through its element order. -/
structure CacheEntry where
  name : String
  data : ModelData
  last_used : Nat
  inserted_at : Nat
deriving Repr, DecidableEq

/-- State of a ModelManager (source: ModelManager.__init__, model_manager.py
lines 51-83).  initial_memory and the debug flag are omitted: they only feed
print statements and the model_memory_usage statistic, which no claim
touches.  clock and load_counter are ghost instrumentation. -/
structure ModelManager where
  max_model_size : Nat
  performance_tier : String
  model_catalog : List (String × ModelInfo)
  loaded_models : List CacheEntry
  max_loaded_models : Nat
  active_model : Option String
  active_model_data : Option ModelData
  load_counter : Nat
  clock : Nat
deriving Repr, DecidableEq

/-- ModelManager.__init__ with the source defaults max_model_size=200,
performance_tier=medium (model_manager.py line 51). -/
def mk_model_manager (max_model_size : Nat := 200)
    (performance_tier : String := "medium") : ModelManager :=
  { max_model_size := max_model_size
    performance_tier := performance_tier
    model_catalog := build_model_catalog
    loaded_models := []
    max_loaded_models := 2
    active_model := none
    active_model_data := none
    load_counter := 0
    clock := 0 }

/-- The tier_order list of check_model_compatibility
(model_manager.py line 225). -/
def tier_order : List String := ["low", "medium", "high", "ultra"]

/-- Python list.index over tier_order.  The source raises ValueError for a
tier not in the list; every tier occurring in the catalog and in the
constructed managers is a member, so the out-of-range result (list length)
returned by findIdx is never produced on those inputs. -/
def tier_index (t : String) : Nat := tier_order.findIdx (fun s => s == t)

/-- ModelManager.check_model_compatibility (model_manager.py lines 192-241).
mem_free_bytes stands for the gc.mem_free() snapshot; the source converts
it to KB by floor division.  Reason strings follow the source f-strings
with the quote characters around the model name dropped. -/
def check_model_compatibility (m : ModelManager) (mem_free_bytes : Nat)
    (model_name : String) : CompatibilityResult :=
  match m.model_catalog.find? (fun p => p.1 == model_name) with
  | none =>
      { compatible := false
        reason := "Model " ++ model_name ++ " not found"
        memory_required := 0
        performance_impact := "unknown" }
  | some p =>
      let model_info := p.2
      let available_memory := mem_free_bytes / 1024
      if model_info.min_memory_kb > available_memory then
        { compatible := false
          reason := "Insufficient memory: need " ++ toString model_info.min_memory_kb
            ++ "KB, available " ++ toString available_memory ++ "KB"
          memory_required := model_info.min_memory_kb
          performance_impact := "high" }
      else if model_info.size_kb > m.max_model_size then
        { compatible := false
          reason := "Model too large: " ++ toString model_info.size_kb
            ++ "KB > " ++ toString m.max_model_size ++ "KB"
          memory_required := model_info.min_memory_kb
          performance_impact := "high" }
      else
        let current_tier_idx := tier_index m.performance_tier
        let required_tier_idx := tier_index model_info.performance_tier
        { compatible := true
          reason := "Compatible"
          memory_required := model_info.min_memory_kb
          performance_impact :=
            if required_tier_idx > current_tier_idx then "high"
            else if required_tier_idx == current_tier_idx then "medium"
            else "low" }

/-- ModelManager._load_model_from_file (model_manager.py lines 302-331).
The body builds the dict unconditionally (the try/except never fires on the
pure construction), so the None result of the source is unreachable and the
function is total here.  serial is the ghost identity of the new object. -/
def _load_model_from_file (model_info : ModelInfo) (serial : Nat) : ModelData :=
  { name := model_info.name
    type := model_info.type
    quantization := model_info.quantization
    size_kb := model_info.size_kb
    capabilities := model_info.capabilities
    weights_len := model_info.size_kb * 1024
    serial := serial }

/-- The while loop of ModelManager._add_to_cache (model_manager.py lines
341-350): while len(loaded_models) >= max_loaded_models, pop the front
(next(iter(..)) of the OrderedDict).  For maxN = 0 the source would raise
StopIteration on an emptied dict; the managers under study fix
max_loaded_models = 2, for which the branch returning [] agrees with no
possible run. -/
def evict_loop : List CacheEntry → Nat → List CacheEntry
  | [], _ => []
  | e :: rest, maxN =>
      if rest.length + 1 >= maxN then evict_loop rest maxN else e :: rest

/-- ModelManager._add_to_cache (model_manager.py lines 338-353): evict from
the front until below the limit, then append the new entry at the back. -/
def _add_to_cache (m : ModelManager) (entry : CacheEntry) : ModelManager :=
  { m with loaded_models :=
      evict_loop m.loaded_models m.max_loaded_models ++ [entry] }

/-- ModelManager._unload_current_model (model_manager.py lines 355-365):
clear the active-model pointers if a model is active; the loaded_models
cache is not touched. -/
def _unload_current_model (m : ModelManager) : ModelManager :=
  if m.active_model.isSome then
    { m with active_model := none, active_model_data := none }
  else m

/-- ModelManager.load_model (model_manager.py lines 243-300).  Returns the
boolean result of the source paired with the updated state.  Notes tying the
branches to the source: the first test is model_name == self.active_model;
the catalog subscript after a successful compatibility check cannot miss
(the none branch below is dead code kept for totality); del followed by
re-insert of a cache hit is the filter-and-append below (keys are unique);
self.loaded_models[model_name] after the insert is the data of the entry. -/
def load_model (m : ModelManager) (mem_free_bytes : Nat)
    (model_name : String) : Bool × ModelManager :=
  if m.active_model == some model_name then (true, m)
  else
    let compatibility := check_model_compatibility m mem_free_bytes model_name
    if !compatibility.compatible then (false, m)
    else
      match m.model_catalog.find? (fun p => p.1 == model_name) with
      | none => (false, m)
      | some p =>
        let model_info := p.2
        let m1 := if m.active_model.isSome then _unload_current_model m else m
        match m1.loaded_models.find? (fun e => e.name == model_name) with
        | some e =>
            let m2 := { m1 with
              loaded_models :=
                m1.loaded_models.filter (fun x => !(x.name == model_name))
                  ++ [{ e with last_used := m1.clock }],
              clock := m1.clock + 1,
              active_model := some model_name,
              active_model_data := some e.data }
            (true, m2)
        | none =>
            let model_data := _load_model_from_file model_info m1.load_counter
            let m2 := _add_to_cache
              { m1 with load_counter := m1.load_counter + 1,
                        clock := m1.clock + 1 }
              { name := model_name, data := model_data,
                last_used := m1.clock, inserted_at := m1.clock }
            (true, { m2 with
                       active_model := some model_name,
                       active_model_data := some model_data })

/-- ModelManager.cleanup (model_manager.py lines 529-543): unload the active
model, then clear the cache. -/
def cleanup (m : ModelManager) : ModelManager :=
  let m1 := _unload_current_model m
  { m1 with loaded_models := [] }

/-- The state-mutating operations of a ModelManager. -/
inductive MMOp where
  | load (mem_free_bytes : Nat) (model_name : String)
  | unload
  | clean
deriving Repr, DecidableEq

/-- Apply one operation to a manager state (result booleans discarded). -/
def mm_step (m : ModelManager) : MMOp → ModelManager
  | .load free name => (load_model m free name).2
  | .unload => _unload_current_model m
  | .clean => cleanup m

/-- Run a sequence of operations from a freshly constructed default manager. -/
def run_ops (ops : List MMOp) : ModelManager :=
  ops.foldl mm_step (mk_model_manager 200 "medium")

/-- A manager state reachable from a freshly constructed default manager. -/
def Reachable (m : ModelManager) : Prop := ∃ ops : List MMOp, run_ops ops = m

/-- Names currently resident in the cache, in order. -/
def cache_names (m : ModelManager) : List String :=
  m.loaded_models.map (fun e => e.name)

/-- Sum of the resident weights byte costs of all cache entries. -/
def resident_bytes (m : ModelManager) : Nat :=
  (m.loaded_models.map (fun e => e.data.weights_len)).sum

example :
    (check_model_compatibility (mk_model_manager 200 "medium") 100000
      "wake-word-tiny").compatible = true := by decide

example :
    (check_model_compatibility (mk_model_manager 200 "medium") 50000
      "command-classifier").compatible = false := by decide

example :
    resident_bytes (run_ops [MMOp.load 300000 "tinyllama-pico",
      MMOp.load 300000 "microllama"]) = 286720 := by decide

/-
  Inference engine (inference_engine.py).  Float arithmetic of the source is
  modelled by exact real numbers, with ** 0.5 as Real.sqrt; branching on
  real comparisons uses classical decidability, so the engine definitions
  are noncomputable.  The ambient collaborators time.ticks_ms() and
  gc.mem_free() are modelled as constants (all elapsed-time and memory
  deltas are 0); no claim depends on their values, only on which state
  fields change.
-/

/-- Verdict of InferenceEngine._run_vad (inference_engine.py lines 236-272).
The debug keys energy_db and threshold of the returned dict are omitted:
no caller reads them. -/
structure VadResult where
  voice_detected : Bool
  confidence : ℝ

/-- Verdict of InferenceEngine._run_wake_word_detection (lines 274-310).
The debug keys features and processing_time_ms are omitted. -/
structure WakeWordResult where
  detected : Bool
  confidence : ℝ

/-- Verdict of InferenceEngine._run_command_classification (lines 312-358).
The keys features_used and processing_time_ms are omitted. -/
structure ClassifyResult where
  command : String
  confidence : ℝ
  all_scores : List (String × ℝ)

/-- Verdict of InferenceEngine._generate_response (lines 360-391); only the
response key is read by the caller. -/
structure ResponseResult where
  response : String

open Classical in
/-- InferenceEngine._run_vad (inference_engine.py lines 236-272): RMS energy,
dB-like scale, threshold 15, confidence clamped to the unit interval,
voice_detected when confidence > 0.3.  The try/except wrapper never fires on
the pure body. -/
noncomputable def _run_vad (audio_data : List Int) : VadResult :=
  if audio_data.length < 10 then { voice_detected := false, confidence := 0 }
  else
    let energy : ℝ :=
      ((audio_data.map (fun sample => ((sample : ℝ)) * sample)).sum) /
        audio_data.length
    let energy_db : ℝ :=
      if energy > 0 then min (20 * Real.sqrt energy / 32768) 100 else 0
    let threshold : ℝ := 15
    let confidence0 : ℝ :=
      if energy_db > threshold then min ((energy_db - threshold) / 20) 1 else 0
    let confidence := max 0 confidence0
    { voice_detected := decide (confidence > 0.3), confidence := confidence }

/-- One frequency-band RMS of InferenceEngine._extract_audio_features
(inference_engine.py lines 399-410): the energy of the i-th chunk, 0 when
the chunk is empty. -/
noncomputable def chunk_rms (audio_data : List Int) (chunk_size i : Nat) : ℝ :=
  let start_idx := i * chunk_size
  let end_idx := min (start_idx + chunk_size) audio_data.length
  if start_idx < end_idx then
    let chunk := (audio_data.drop start_idx).take (end_idx - start_idx)
    Real.sqrt (((chunk.map (fun sample => ((sample : ℝ)) * sample)).sum) /
      chunk.length)
  else 0

/-- InferenceEngine._extract_audio_features (inference_engine.py lines
393-437): 8 band RMS values, the zero-crossing rate, and the simplified
spectral centroid; 10 features in total. -/
noncomputable def _extract_audio_features (audio_data : List Int) : List ℝ :=
  let chunk_size := audio_data.length / 8
  let band_features := (List.range 8).map (chunk_rms audio_data chunk_size)
  let zero_crossings : Nat :=
    (List.zip audio_data audio_data.tail).countP
      (fun p => !(decide (p.2 >= 0) == decide (p.1 >= 0)))
  let zcr : ℝ := (zero_crossings : ℝ) / audio_data.length * 1000
  let weighted_sum : ℤ :=
    ((audio_data.enum).map (fun p => (p.1 : ℤ) * |p.2|)).sum
  let magnitude_sum : ℤ := (audio_data.map (fun sample => |sample|)).sum
  let spectral_centroid : ℝ :=
    if magnitude_sum > 0 then
      ((weighted_sum : ℝ) / (magnitude_sum : ℝ)) / audio_data.length * 1000
    else 0
  band_features ++ [zcr, spectral_centroid]

/-- Python max over a list (raises on empty in the source; only applied to
the 10-element feature list). -/
noncomputable def pymax : List ℝ → ℝ
  | [] => 0
  | x :: xs => xs.foldl max x

/-- Python min over a list (raises on empty in the source; only applied to
the 10-element feature list). -/
noncomputable def pymin : List ℝ → ℝ
  | [] => 0
  | x :: xs => xs.foldl min x

open Classical in
/-- InferenceEngine._run_wake_word_detection (inference_engine.py lines
274-310): pattern score over the extracted features, detected when the
clamped score exceeds 0.6. -/
noncomputable def _run_wake_word_detection (audio_data : List Int) :
    WakeWordResult :=
  if audio_data.length < 100 then { detected := false, confidence := 0 }
  else
    let features := _extract_audio_features audio_data
    let energy_pattern :=
      ((features.map (fun f => |f|)).sum) / features.length
    let spectral_pattern := pymax features - pymin features
    let detection_score := (energy_pattern * 0.7 + spectral_pattern * 0.3) / 100
    let confidence := min detection_score 1
    { detected := decide (confidence > 0.6), confidence := confidence }

/-- The commands list of InferenceEngine._run_command_classification
(inference_engine.py lines 324-328), in order. -/
def engine_commands : List String :=
  ["turn_on_light", "turn_off_light", "increase_volume", "decrease_volume",
   "play_music", "stop_music", "set_timer", "check_weather", "tell_time",
   "help"]

/-- Python float modulo x % y for y > 0: x - y * floor(x / y). -/
noncomputable def fmod (x y : ℝ) : ℝ := x - y * ⌊x / y⌋

/-- InferenceEngine._run_command_classification (inference_engine.py lines
312-358).  int(feature_sum) is the floor since feature_sum is a sum of
absolute values, hence nonnegative. -/
noncomputable def _run_command_classification (audio_data : List Int) :
    Option ClassifyResult :=
  if audio_data.length < 50 then none
  else
    let features := _extract_audio_features audio_data
    let feature_sum : ℝ := (features.map (fun f => |f|)).sum
    let command_idx : Nat := (⌊feature_sum⌋).toNat % engine_commands.length
    let predicted_command := engine_commands.getD command_idx ""
    let confidence : ℝ := min (0.6 + fmod feature_sum 100 / 250) 0.95
    let all_scores := engine_commands.enum.map (fun p =>
      (p.2, if p.1 = command_idx then confidence
            else (1 - confidence) / ((engine_commands.length : ℝ) - 1)))
    some { command := predicted_command, confidence := confidence,
           all_scores := all_scores }

/-- The response templates of InferenceEngine._generate_response
(inference_engine.py lines 366-377). -/
def response_templates : List (String × String) :=
  [("turn_on_light", "Light turned on"),
   ("turn_off_light", "Light turned off"),
   ("increase_volume", "Volume increased"),
   ("decrease_volume", "Volume decreased"),
   ("play_music", "Playing music"),
   ("stop_music", "Music stopped"),
   ("set_timer", "Timer set"),
   ("check_weather", "Weather data not available offline"),
   ("tell_time", "Clock not available"),
   ("help", "I can control lights, volume, and music")]

/-- InferenceEngine._generate_response (inference_engine.py lines 360-391),
taking the command name read from the classification verdict; only the
response field of the returned dict is consumed by process_audio. -/
def _generate_response (command : String) : ResponseResult :=
  { response :=
      (((response_templates.find? (fun p => p.1 == command)).map
        (fun p => p.2)).getD "Command understood but not implemented") }

/-- State of an InferenceEngine (source: InferenceEngine.__init__,
inference_engine.py lines 52-90).  The reusable audio/feature scratch
buffers, the context_buffer (untouched by process_audio) and the debug flag
are omitted; initial_memory is the constant allocator snapshot. -/
structure InferenceEngine where
  max_context_length : Nat
  performance_tier : String
  processing_active : Bool
  last_wake_word_time : Nat
  total_inferences : Nat
  total_processing_time : Nat
  memory_peak : Int
deriving Repr, DecidableEq

/-- InferenceEngine.__init__ with the source defaults. -/
def mk_inference_engine (max_context_length : Nat := 128)
    (performance_tier : String := "medium") : InferenceEngine :=
  { max_context_length := max_context_length
    performance_tier := performance_tier
    processing_active := false
    last_wake_word_time := 0
    total_inferences := 0
    total_processing_time := 0
    memory_peak := 0 }

/-- The data payload of an InferenceResult, one constructor per dict shape
the source puts in the data field of _create_result. -/
inductive ResultData where
  | vad (voice_detected : Bool)
  | voice_activity (vad_result : VadResult)
  | command (command : String) (confidence : ℝ) (response : String)
      (wake_word : WakeWordResult)
  | wake_word (wake_word_result : WakeWordResult)
  | error (message : String)

/-- Source: InferenceResult namedtuple (inference_engine.py lines 31-34). -/
structure InferenceResult where
  success : Bool
  result_type : String
  data : ResultData
  confidence : ℝ
  processing_time_ms : Nat
  memory_used : Int
  model_name : String

/-- InferenceEngine._create_result (inference_engine.py lines 439-449). -/
def _create_result (success : Bool) (result_type : String) (data : ResultData)
    (confidence : ℝ) (processing_time_ms : Nat) (memory_used : Int)
    (model_name : String) : InferenceResult :=
  { success := success, result_type := result_type, data := data,
    confidence := confidence, processing_time_ms := processing_time_ms,
    memory_used := memory_used, model_name := model_name }

/-- InferenceEngine._update_stats (inference_engine.py lines 451-464) under
the constant clock/allocator model: the elapsed time and the memory delta
are 0, so total_processing_time gains 0 and the peak comparison is 0 against
the stored peak.  The periodic gc.collect() has no observable effect. -/
def _update_stats (e : InferenceEngine) : InferenceEngine :=
  let processing_time : Nat := 0
  let memory_used : Int := 0
  { e with
      total_inferences := e.total_inferences + 1
      total_processing_time := e.total_processing_time + processing_time
      memory_peak :=
        if memory_used > e.memory_peak then memory_used else e.memory_peak }

/-- The four pipeline stages process_audio invokes, as fallible operations:
the source wraps its stage sequence in try/except, so a stage that raises
is modelled as one that returns Except.error.  The stages of the source
itself never raise (real_stages below wraps each total stage in Except.ok);
the parameterisation makes the behaviour of the handler on a raising stage a
statable property. -/
structure StageFns where
  vad : List Int → Except String VadResult
  wake_word : List Int → Except String WakeWordResult
  classify : List Int → Except String (Option ClassifyResult)
  respond : String → Except String ResponseResult

/-- The stages as implemented in the source: total, never raising. -/
noncomputable def real_stages : StageFns :=
  { vad := fun buf => .ok (_run_vad buf)
    wake_word := fun buf => .ok (_run_wake_word_detection buf)
    classify := fun buf => .ok (_run_command_classification buf)
    respond := fun command => .ok (_generate_response command) }

/-- Output of the try-block body of process_audio: the engine state as
mutated so far, the normal result or the raised error, and (ghost
instrumentation) the names of the stages that ran. -/
structure BodyResult where
  engine : InferenceEngine
  outcome : Except String InferenceResult
  stages_run : List String

/-- The try-block body of InferenceEngine.process_audio (inference_engine.py
lines 139-216): VAD, then wake word, then classification, then response,
short-circuiting exactly as the source does.  State mutations that precede a
raising stage persist (the source mutates self in place).  Elapsed-time and
memory deltas are 0 under the constant clock/allocator model. -/
noncomputable def process_audio_body (st : StageFns) (e0 : InferenceEngine)
    (audio_data : List Int) : BodyResult :=
  let e := { e0 with processing_active := true }
  match st.vad audio_data with
  | .error msg =>
      { engine := e, outcome := .error msg,
        stages_run := ["voice_activity_detection"] }
  | .ok vad_result =>
    if !vad_result.voice_detected then
      { engine := e,
        outcome := .ok (_create_result true "vad" (.vad false)
          vad_result.confidence 0 0 "vad"),
        stages_run := ["voice_activity_detection"] }
    else
      match st.wake_word audio_data with
      | .error msg =>
          { engine := e, outcome := .error msg,
            stages_run := ["voice_activity_detection", "wake_word_detection"] }
      | .ok wake_word_result =>
        if !wake_word_result.detected then
          { engine := e,
            outcome := .ok (_create_result true "voice_activity"
              (.voice_activity vad_result) vad_result.confidence 0 0 "vad"),
            stages_run := ["voice_activity_detection", "wake_word_detection"] }
        else
          let e := { e with last_wake_word_time := 0 }
          match st.classify audio_data with
          | .error msg =>
              { engine := e, outcome := .error msg,
                stages_run := ["voice_activity_detection",
                  "wake_word_detection", "command_classification"] }
          | .ok command_result =>
            match command_result with
            | some cr =>
              if cr.command ≠ "" then
                match st.respond cr.command with
                | .error msg =>
                    { engine := e, outcome := .error msg,
                      stages_run := ["voice_activity_detection",
                        "wake_word_detection", "command_classification",
                        "response_generation"] }
                | .ok response_result =>
                    { engine := e,
                      outcome := .ok (_create_result true "command"
                        (.command cr.command cr.confidence
                          response_result.response wake_word_result)
                        cr.confidence 0 0 "command_classifier"),
                      stages_run := ["voice_activity_detection",
                        "wake_word_detection", "command_classification",
                        "response_generation"] }
              else
                { engine := e,
                  outcome := .ok (_create_result true "wake_word"
                    (.wake_word wake_word_result) wake_word_result.confidence
                    0 0 "wake_word"),
                  stages_run := ["voice_activity_detection",
                    "wake_word_detection", "command_classification"] }
            | none =>
                { engine := e,
                  outcome := .ok (_create_result true "wake_word"
                    (.wake_word wake_word_result) wake_word_result.confidence
                    0 0 "wake_word"),
                  stages_run := ["voice_activity_detection",
                    "wake_word_detection", "command_classification"] }

/-- InferenceEngine.process_audio (inference_engine.py lines 123-234).
A None or empty buffer returns None before the try block, so neither the
finally clause nor _update_stats runs.  Otherwise the body runs; a raised
error is converted by the except clause into the error result; the finally
clause clears processing_active and updates the running statistics in every
non-early-return case. -/
noncomputable def process_audio (st : StageFns) (e : InferenceEngine)
    (audio_data : Option (List Int)) :
    Option InferenceResult × InferenceEngine :=
  match audio_data with
  | none => (none, e)
  | some buf =>
    if buf.length = 0 then (none, e)
    else
      let b := process_audio_body st e buf
      let result :=
        match b.outcome with
        | .ok r => r
        | .error msg => _create_result false "error" (.error msg) 0 0 0 "none"
      let e2 := _update_stats { b.engine with processing_active := false }
      (some result, e2)

/-- The source inference engine holds no reference to any ModelManager:
process_audio reads and writes InferenceEngine state only, and its stages
are inline simulations that borrow no model.  The joint system step
therefore carries any manager state through untouched; this definition
records that shape of the source for the cache-noninteraction claims. -/
noncomputable def process_audio_system (st : StageFns) (e : InferenceEngine)
    (mm : ModelManager) (audio_data : Option (List Int)) :
    (Option InferenceResult × InferenceEngine) × ModelManager :=
  (process_audio st e audio_data, mm)

/-
  Claim proofs: model manager.
-/

/-- Core shape of check_model_compatibility for a cataloged model whose
declared minimum memory dominates its footprint (true of every catalog
entry): compatibility is exactly the byte-level memory test against the
free-memory snapshot together with the size test against the configured
maximum, the floor division by 1024 of the source being equivalent to
comparing min_memory_kb * 1024 with the byte count. -/
theorem check_compatible_iff (m : ModelManager) (free : Nat) (name : String)
    (info : ModelInfo)
    (hfind : m.model_catalog.find? (fun q => q.1 == name) = some (name, info))
    (hms : info.size_kb ≤ info.min_memory_kb) :
    (check_model_compatibility m free name).compatible
      = decide (max (info.min_memory_kb * 1024) (info.size_kb * 1024 * 1) ≤ free
          ∧ info.size_kb * 1024 ≤ m.max_model_size * 1024) := by
  have hmax : max (info.min_memory_kb * 1024) (info.size_kb * 1024 * 1)
      = info.min_memory_kb * 1024 := by
    apply Nat.max_eq_left; omega
  unfold check_model_compatibility
  rw [hfind, hmax]
  dsimp only
  split_ifs with h1 h2 h3 h4 <;> symm
  · rw [decide_eq_false_iff_not]; rintro ⟨ha, -⟩; omega
  · rw [decide_eq_false_iff_not]; rintro ⟨-, hb⟩; omega
  all_goals rw [decide_eq_true_eq]; exact ⟨by omega, by omega⟩

set_option maxRecDepth 4000 in
set_option maxHeartbeats 1000000 in
/-- C1: for every model in the catalog and every free-memory snapshot, the
compatibility check returns compatible = true iff the required memory
(max of declared minimum memory and footprint, i.e. the formula of the claim at
overhead_factor = 1.0, the smallest value its constraint allows; the source
applies no overhead scaling and every catalog entry declares a minimum at
least its footprint) fits in the free bytes and the footprint is at most
the configured maximum model size; moreover check at wake-word-tiny with
100000 free bytes is compatible, and check at command-classifier with
50000 free bytes is incompatible with required memory 80 KB (the 80000-byte
figure of the claim expressed in the KB unit the source reports) and a
reason mentioning insufficient memory. -/
theorem c1_compatibility_check :
    (∀ (max_sz : Nat) (tier : String) (free : Nat) (name : String)
      (info : ModelInfo), (name, info) ∈ build_model_catalog →
      (check_model_compatibility (mk_model_manager max_sz tier) free
          name).compatible
        = decide (max (info.min_memory_kb * 1024) (info.size_kb * 1024 * 1)
              ≤ free
            ∧ info.size_kb * 1024 ≤ max_sz * 1024))
    ∧ (check_model_compatibility (mk_model_manager 200 "medium") 100000
        "wake-word-tiny").compatible = true
    ∧ (check_model_compatibility (mk_model_manager 200 "medium") 50000
        "command-classifier").compatible = false
    ∧ (check_model_compatibility (mk_model_manager 200 "medium") 50000
        "command-classifier").memory_required = 80
    ∧ (check_model_compatibility (mk_model_manager 200 "medium") 50000
        "command-classifier").reason
        = "Insufficient memory: need 80KB, available 48KB" := by
  refine ⟨?_, by decide, by decide, by decide, by decide⟩
  intro max_sz tier free name info hmem
  simp only [build_model_catalog, List.mem_cons, List.not_mem_nil, or_false,
    Prod.mk.injEq] at hmem
  rcases hmem with ⟨rfl, rfl⟩ | ⟨rfl, rfl⟩ | ⟨rfl, rfl⟩ | ⟨rfl, rfl⟩ |
    ⟨rfl, rfl⟩ <;>
    exact check_compatible_iff _ free _ _ rfl (by decide)

/-- Witness for c1_compatibility_check: its general part applied to the
catalog model microllama at a concrete manager and snapshot. -/
theorem c1_witness :
    (check_model_compatibility (mk_model_manager 200 "medium") 77000
        "microllama").compatible
      = decide (max (120 * 1024) (80 * 1024 * 1) ≤ 77000
          ∧ 80 * 1024 ≤ 200 * 1024) :=
  c1_compatibility_check.1 200 "medium" 77000 "microllama"
    { name := "microllama", size_kb := 80, type := "language_model",
      quantization := "4bit", min_memory_kb := 120,
      performance_tier := "medium",
      capabilities := ["simple_responses", "basic_qa"],
      file_path := "models/microllama.bin" } (by decide)

/-- Modelled from the spec: the ratio-based performance_impact policy of
section 4.2 (compare required_memory to free_memory_bytes as a ratio, with
breakpoints ratio > 0.8 giving high and ratio > 0.5 giving medium, else
low), stated over byte counts with the fractions cleared. -/
def spec_ratio_performance_impact (required_bytes free_bytes : Nat) : String :=
  if 10 * required_bytes > 8 * free_bytes then "high"
  else if 10 * required_bytes > 5 * free_bytes then "medium"
  else "low"

/-- C9 counterexample: with 90000 bytes free, command-classifier (required
memory 80 KB = 81920 bytes, ratio about 0.91) is accepted, the claimed
ratio policy yields high, but the code returns medium: the source computes
performance_impact by comparing the performance tiers of the model and the
manager, not any memory ratio. -/
theorem c9_counterexample :
    (check_model_compatibility (mk_model_manager 200 "medium") 90000
        "command-classifier").compatible = true
    ∧ (check_model_compatibility (mk_model_manager 200 "medium") 90000
        "command-classifier").performance_impact = "medium"
    ∧ spec_ratio_performance_impact
        ((check_model_compatibility (mk_model_manager 200 "medium") 90000
          "command-classifier").memory_required * 1024) 90000 = "high"
    ∧ ¬ (check_model_compatibility (mk_model_manager 200 "medium") 90000
          "command-classifier").performance_impact
        = spec_ratio_performance_impact
            ((check_model_compatibility (mk_model_manager 200 "medium") 90000
              "command-classifier").memory_required * 1024) 90000 := by
  refine ⟨by decide, by decide, by decide, by decide⟩

/-- C9 as amended: for every cataloged model accepted by the compatibility
check, performance_impact is derived from the performance tiers (model tier
above the configured tier gives high, equal gives medium, below gives low),
not from a memory ratio. -/
theorem c9_tier_performance_impact (m : ModelManager) (free : Nat)
    (name : String) (info : ModelInfo)
    (hfind : m.model_catalog.find? (fun q => q.1 == name) = some (name, info))
    (hcomp : (check_model_compatibility m free name).compatible = true) :
    (check_model_compatibility m free name).performance_impact
      = (if tier_index m.performance_tier < tier_index info.performance_tier
          then "high"
         else if tier_index info.performance_tier
            = tier_index m.performance_tier then "medium"
         else "low") := by
  unfold check_model_compatibility at hcomp ⊢
  rw [hfind] at hcomp ⊢
  dsimp only at hcomp ⊢
  split_ifs at hcomp ⊢ with h1 h2 h3 h4 <;>
    simp_all [Nat.lt_iff_add_one_le, beq_iff_eq]

/-- Witness for c9_tier_performance_impact: command-classifier (tier medium)
on a manager configured with tier low and ample memory. -/
theorem c9_witness :
    (check_model_compatibility (mk_model_manager 200 "low") 90000
        "command-classifier").performance_impact
      = (if tier_index "low" < tier_index "medium" then "high"
         else if tier_index "medium" = tier_index "low" then "medium"
         else "low") :=
  c9_tier_performance_impact (mk_model_manager 200 "low") 90000
    "command-classifier"
    { name := "command-classifier", size_kb := 45, type := "classification",
      quantization := "8bit", min_memory_kb := 80,
      performance_tier := "medium",
      capabilities := ["command_recognition", "intent_classification"],
      file_path := "models/command_classifier.bin" }
    rfl (by decide)

/-- C2 counterexample: from a fresh default manager, loading tinyllama-pico
(200 KB weights) and then microllama (80 KB weights), both compatible,
leaves 286720 resident bytes in the cache, exceeding 204800 bytes, the
value of the only configured byte-denominated limit of the source
(max_model_size, 200 KB); the ModelManager state carries no cache memory
budget field at all, and _add_to_cache compares entry counts only, so no
budget over resident byte sums is configured or enforced. -/
theorem c2_counterexample :
    resident_bytes (run_ops [MMOp.load 300000 "tinyllama-pico",
        MMOp.load 300000 "microllama"]) = 286720
    ∧ (run_ops [MMOp.load 300000 "tinyllama-pico",
        MMOp.load 300000 "microllama"]).max_model_size * 1024 = 204800
    ∧ ¬ resident_bytes (run_ops [MMOp.load 300000 "tinyllama-pico",
          MMOp.load 300000 "microllama"])
        ≤ (run_ops [MMOp.load 300000 "tinyllama-pico",
            MMOp.load 300000 "microllama"]).max_model_size * 1024
    ∧ (run_ops [MMOp.load 300000 "tinyllama-pico",
        MMOp.load 300000 "microllama"]).loaded_models.length = 2 := by
  refine ⟨by decide, by decide, by decide, by decide⟩

/-- C5 counterexample: loading wake-word-tiny, unloading it, and loading it
again invokes the loader exactly once in total, and the active model data
after the reload is the very object produced by the first load (serial 0),
i.e. the cached handle, not a fresh load. -/
theorem c5_counterexample :
    (run_ops [MMOp.load 100000 "wake-word-tiny", MMOp.unload,
        MMOp.load 100000 "wake-word-tiny"]).load_counter = 1
    ∧ (run_ops [MMOp.load 100000 "wake-word-tiny", MMOp.unload,
        MMOp.load 100000 "wake-word-tiny"]).active_model_data
      = (run_ops [MMOp.load 100000 "wake-word-tiny"]).active_model_data
    ∧ ((run_ops [MMOp.load 100000 "wake-word-tiny", MMOp.unload,
        MMOp.load 100000 "wake-word-tiny"]).active_model_data.map
          (fun d => d.serial)) = some 0 := by
  refine ⟨by decide, by decide, by decide⟩

/-- Verdict of ModelManager._process_classification (model_manager.py lines
434-457); confidences are exact rationals.  The model and
processing_time_ms keys are omitted: no claim touches them. -/
structure MMClassifyResult where
  command : String
  confidence : ℚ
  all_scores : List (String × ℚ)
deriving Repr, DecidableEq

/-- The commands list of ModelManager._process_classification
(model_manager.py line 439). -/
def mm_commands : List String :=
  ["turn_on", "turn_off", "increase", "decrease", "status"]

/-- ModelManager._process_classification (model_manager.py lines 434-457)
over an integer input list (the isinstance test of the source is the list
type of the embedding; the length test remains).  The all_scores dict is
built by the same comprehension in both branches, exactly as in the
source. -/
def _process_classification (input_data : List Int) : MMClassifyResult :=
  let all_scores := mm_commands.enum.map
    (fun p => (p.2, (0.1 : ℚ) + p.1 * 0.1))
  if input_data.length > 0 then
    let choice_idx : Nat :=
      (((input_data.take 10).map Int.natAbs).sum) % mm_commands.length
    { command := mm_commands.getD choice_idx ""
      confidence := 0.7 + choice_idx * 0.05
      all_scores := all_scores }
  else
    { command := "unknown", confidence := 0.1, all_scores := all_scores }

/-- C7 counterexample: at the non-empty input consisting of the single
sample 1, the manager classification stage returns command turn_off while
its all_scores distribution sums to 3/2 (violating the at-most-1.0 bound)
and has its maximum 1/2 at status, so the returned command is not the
argmax of the distribution. -/
theorem c7_counterexample :
    (_process_classification [1]).command = "turn_off"
    ∧ (((_process_classification [1]).all_scores.map (fun p => p.2)).sum)
        = 3/2
    ∧ ¬ (((_process_classification [1]).all_scores.map (fun p => p.2)).sum
          ≤ 1)
    ∧ ("status", 1/2) ∈ (_process_classification [1]).all_scores
    ∧ (∀ p ∈ (_process_classification [1]).all_scores, p.2 ≤ 1/2)
    ∧ ¬ (_process_classification [1]).command = "status" := by
  have h : _process_classification [1]
      = { command := "turn_off", confidence := 3/4,
          all_scores := [("turn_on", 1/10), ("turn_off", 1/5),
            ("increase", 3/10), ("decrease", 2/5), ("status", 1/2)] } := by
    norm_num [_process_classification, mm_commands, List.enum, List.enumFrom]
  rw [h]
  refine ⟨rfl, by norm_num, by norm_num, by norm_num, ?_, by decide⟩
  intro p hp
  simp only [List.mem_cons, List.not_mem_nil, or_false] at hp
  rcases hp with rfl | rfl | rfl | rfl | rfl <;> norm_num

/-
  Cache machinery lemmas.
-/

theorem evict_loop_sublist (l : List CacheEntry) (n : Nat) :
    (evict_loop l n).Sublist l := by
  induction l with
  | nil => simp [evict_loop]
  | cons e rest ih =>
    unfold evict_loop
    split
    · exact ih.cons e
    · exact List.Sublist.refl _

theorem evict_loop_length (l : List CacheEntry) (n : Nat) (hn : 1 ≤ n) :
    (evict_loop l n).length < n := by
  induction l with
  | nil => simpa [evict_loop] using hn
  | cons e rest ih =>
    unfold evict_loop
    split
    · exact ih
    · next hcond => simp only [List.length_cons]; omega

theorem evict_loop_of_lt (l : List CacheEntry) (n : Nat)
    (h : l.length < n) : evict_loop l n = l := by
  cases l with
  | nil => rfl
  | cons e rest =>
    simp only [List.length_cons] at h
    unfold evict_loop
    rw [if_neg (by omega)]

theorem evict_loop_full (l : List CacheEntry) (n : Nat)
    (h : l.length = n) : evict_loop l n = l.tail := by
  cases l with
  | nil => rfl
  | cons e rest =>
    simp only [List.length_cons] at h
    unfold evict_loop
    rw [if_pos (by omega)]
    exact evict_loop_of_lt rest n (by omega)

theorem length_filter_lt {α : Type} (q : α → Bool) (l : List α) (a : α)
    (ha : a ∈ l) (hqa : q a = false) :
    (l.filter q).length < l.length := by
  induction l with
  | nil => cases ha
  | cons x xs ih =>
    rcases List.mem_cons.mp ha with rfl | ha2
    · have h1 := List.length_filter_le q xs
      simp [List.filter_cons, hqa]
      omega
    · have h2 := ih ha2
      by_cases hx : q x = true
      · simp [List.filter_cons, hx]
        omega
      · have hx2 : q x = false := by simpa using hx
        simp [List.filter_cons, hx2]
        omega

/-- A successful compatibility check implies the model was found in the
catalog. -/
theorem compat_found (m : ModelManager) (free : Nat) (name : String)
    (hcomp : (check_model_compatibility m free name).compatible = true) :
    ∃ p, m.model_catalog.find? (fun q => q.1 == name) = some p := by
  cases hfind : m.model_catalog.find? (fun q => q.1 == name) with
  | none =>
      unfold check_model_compatibility at hcomp
      rw [hfind] at hcomp
      exact absurd hcomp (by simp)
  | some p => exact ⟨p, rfl⟩

/-- A successful compatibility check bounds the footprint of the found model by
the configured maximum model size. -/
theorem compat_size_le (m : ModelManager) (free : Nat) (name : String)
    (p : String × ModelInfo)
    (hfind : m.model_catalog.find? (fun q => q.1 == name) = some p)
    (hcomp : (check_model_compatibility m free name).compatible = true) :
    p.2.size_kb ≤ m.max_model_size := by
  unfold check_model_compatibility at hcomp
  rw [hfind] at hcomp
  dsimp only at hcomp
  split_ifs at hcomp with h1 h2 <;> (try simp at hcomp) <;> omega

/-- Equation lemma: loading the name that is already active returns
immediately with the state unchanged. -/
theorem load_model_same (m : ModelManager) (free : Nat) (name : String)
    (h : m.active_model = some name) :
    load_model m free name = (true, m) := by
  unfold load_model
  rw [if_pos (by simp [h])]

/-- Equation lemma: an incompatible request (for a non-active name) is
rejected with the state unchanged. -/
theorem load_model_incompat (m : ModelManager) (free : Nat) (name : String)
    (hs : m.active_model ≠ some name)
    (hc : (check_model_compatibility m free name).compatible = false) :
    load_model m free name = (false, m) := by
  unfold load_model
  rw [if_neg (by simp [hs])]
  dsimp only
  rw [if_pos (by simp [hc])]

/-- Equation lemma: a compatible request for a non-active name resident in
the cache re-inserts its entry at the most-recently-used end (with a
bumped ghost stamp) and makes it active; the loader is not invoked. -/
theorem load_model_hit (m : ModelManager) (free : Nat) (name : String)
    (e : CacheEntry)
    (hs : m.active_model ≠ some name)
    (hc : (check_model_compatibility m free name).compatible = true)
    (hhit : m.loaded_models.find? (fun x => x.name == name) = some e) :
    load_model m free name
      = (true,
         { m with
             loaded_models :=
               m.loaded_models.filter (fun x => !(x.name == name))
                 ++ [{ e with last_used := m.clock }]
             clock := m.clock + 1
             active_model := some name
             active_model_data := some e.data }) := by
  obtain ⟨p, hfind⟩ := compat_found m free name hc
  by_cases hact : m.active_model.isSome <;>
    simp only [load_model, beq_iff_eq, hs, if_false, ite_false, hc,
      Bool.not_true, hfind, hact, if_true, ite_true, _unload_current_model,
      hhit, Bool.false_eq_true]

/-- Equation lemma: a compatible request for a non-active, non-resident name
invokes the loader once, evicts from the least-recently-used end until
below the configured count, appends the fresh entry at the
most-recently-used end and makes it active. -/
theorem load_model_miss (m : ModelManager) (free : Nat) (name : String)
    (p : String × ModelInfo)
    (hs : m.active_model ≠ some name)
    (hc : (check_model_compatibility m free name).compatible = true)
    (hfind : m.model_catalog.find? (fun q => q.1 == name) = some p)
    (hmiss : m.loaded_models.find? (fun x => x.name == name) = none) :
    load_model m free name
      = (true,
         { m with
             loaded_models :=
               evict_loop m.loaded_models m.max_loaded_models
                 ++ [{ name := name
                       data := _load_model_from_file p.2 m.load_counter
                       last_used := m.clock, inserted_at := m.clock }]
             clock := m.clock + 1
             load_counter := m.load_counter + 1
             active_model := some name
             active_model_data :=
               some (_load_model_from_file p.2 m.load_counter) }) := by
  by_cases hact : m.active_model.isSome <;>
    simp only [load_model, beq_iff_eq, hs, if_false, ite_false, hc,
      Bool.not_true, hfind, hact, if_true, ite_true, _unload_current_model,
      hmiss, Bool.false_eq_true, _add_to_cache]

/-- The cache invariants maintained by every ModelManager operation: the
configured count limit is the 2 of the constructor; cache keys are distinct; the
entry count never exceeds the limit; the ghost last-used stamps strictly
increase from the least-recently-used front to the most-recently-used back
and stay below the ghost clock; every resident entry passed the size check
at load time; and the active model, when set, is the most-recently-used
cache entry and owns the active data. -/
structure CacheInv (m : ModelManager) : Prop where
  max_two : m.max_loaded_models = 2
  key_nodup : (cache_names m).Nodup
  count : m.loaded_models.length ≤ m.max_loaded_models
  sorted : m.loaded_models.Pairwise (fun a b => a.last_used < b.last_used)
  stamps_lt : ∀ e ∈ m.loaded_models, e.last_used < m.clock
  size_ok : ∀ e ∈ m.loaded_models,
    e.data.weights_len ≤ m.max_model_size * 1024
  active_last : ∀ n, m.active_model = some n →
    ∃ l e, m.loaded_models = l ++ [e] ∧ e.name = n
      ∧ m.active_model_data = some e.data

theorem unload_preserves (m : ModelManager) :
    (_unload_current_model m).loaded_models = m.loaded_models
    ∧ (_unload_current_model m).clock = m.clock
    ∧ (_unload_current_model m).max_loaded_models = m.max_loaded_models
    ∧ (_unload_current_model m).max_model_size = m.max_model_size
    ∧ (_unload_current_model m).load_counter = m.load_counter := by
  unfold _unload_current_model
  split <;> exact ⟨rfl, rfl, rfl, rfl, rfl⟩

theorem unload_active (m : ModelManager) :
    (_unload_current_model m).active_model = none := by
  unfold _unload_current_model
  split
  · rfl
  · next hcond => simpa using hcond

theorem inv_unload {m : ModelManager} (h : CacheInv m) :
    CacheInv (_unload_current_model m) := by
  unfold _unload_current_model
  split
  · exact { max_two := h.max_two
            key_nodup := h.key_nodup
            count := h.count
            sorted := h.sorted
            stamps_lt := h.stamps_lt
            size_ok := h.size_ok
            active_last := by intro n hn; simp at hn }
  · exact h

theorem inv_cleanup {m : ModelManager} (h : CacheInv m) :
    CacheInv (cleanup m) := by
  unfold cleanup
  dsimp only
  refine { max_two := ?_
           key_nodup := by simp [cache_names]
           count := by simp
           sorted := by simp
           stamps_lt := by simp
           size_ok := by simp
           active_last := ?_ }
  · show (_unload_current_model m).max_loaded_models = 2
    rw [(unload_preserves m).2.2.1]
    exact h.max_two
  · intro n hn
    have hn2 : (_unload_current_model m).active_model = some n := hn
    rw [unload_active] at hn2
    exact Option.noConfusion hn2

theorem inv_load {m : ModelManager} (h : CacheInv m) (free : Nat)
    (name : String) : CacheInv (load_model m free name).2 := by
  by_cases hs : m.active_model = some name
  · rw [load_model_same m free name hs]
    exact h
  cases hc : (check_model_compatibility m free name).compatible with
  | false =>
      rw [load_model_incompat m free name hs hc]
      exact h
  | true =>
    obtain ⟨p, hfind⟩ := compat_found m free name hc
    cases hhit : m.loaded_models.find? (fun x => x.name == name) with
    | some e =>
        have he_mem : e ∈ m.loaded_models := List.mem_of_find?_eq_some hhit
        have he_name : e.name = name := by
          have := List.find?_some hhit
          simpa using this
        rw [load_model_hit m free name e hs hc hhit]
        have hsub : (m.loaded_models.filter
            (fun x => !(x.name == name))).Sublist m.loaded_models :=
          List.filter_sublist _
        have hmem_filter : ∀ x ∈ m.loaded_models.filter
            (fun x => !(x.name == name)), x ∈ m.loaded_models :=
          fun x hx => hsub.mem hx
        have hname_filter : ∀ x ∈ m.loaded_models.filter
            (fun x => !(x.name == name)), x.name ≠ name := by
          intro x hx
          have := List.of_mem_filter hx
          simpa using this
        refine { max_two := h.max_two
                 key_nodup := ?_
                 count := ?_
                 sorted := ?_
                 stamps_lt := ?_
                 size_ok := ?_
                 active_last := ?_ }
        · simp only [cache_names]
          rw [List.map_append, List.nodup_append]
          refine ⟨(h.key_nodup).sublist (hsub.map _), by simp, ?_⟩
          intro a ha hb
          simp only [List.mem_map] at ha
          obtain ⟨x, hx, rfl⟩ := ha
          simp only [List.map_cons, List.map_nil, List.mem_singleton] at hb
          exact hname_filter x hx (hb.trans he_name)
        · rw [List.length_append]
          have hlt : (m.loaded_models.filter
              (fun x => !(x.name == name))).length
                < m.loaded_models.length := by
            apply length_filter_lt _ _ e he_mem
            simp [he_name]
          have hcnt := h.count
          simp only [List.length_singleton]
          omega
        · dsimp only
          rw [List.pairwise_append]
          refine ⟨(h.sorted).sublist hsub, by simp, ?_⟩
          intro a ha b hb
          simp only [List.mem_singleton] at hb
          subst hb
          exact h.stamps_lt a (hmem_filter a ha)
        · dsimp only
          intro x hx
          rcases List.mem_append.mp hx with hx1 | hx1
          · exact Nat.lt_succ_of_lt (h.stamps_lt x (hmem_filter x hx1))
          · simp only [List.mem_singleton] at hx1
            subst hx1
            exact Nat.lt_succ_self _
        · dsimp only
          intro x hx
          rcases List.mem_append.mp hx with hx1 | hx1
          · exact h.size_ok x (hmem_filter x hx1)
          · simp only [List.mem_singleton] at hx1
            subst hx1
            exact h.size_ok e he_mem
        · intro n hn
          dsimp only at hn
          obtain rfl : name = n := by simpa using hn
          exact ⟨m.loaded_models.filter (fun x => !(x.name == name)),
            { e with last_used := m.clock }, rfl, he_name, rfl⟩
    | none =>
        have hnot_mem : ∀ x ∈ m.loaded_models, x.name ≠ name := by
          intro x hx
          have := List.find?_eq_none.mp hhit x hx
          simpa using this
        rw [load_model_miss m free name p hs hc hfind hhit]
        have hsub : (evict_loop m.loaded_models
            m.max_loaded_models).Sublist m.loaded_models :=
          evict_loop_sublist _ _
        have hlen : (evict_loop m.loaded_models
            m.max_loaded_models).length < m.max_loaded_models := by
          apply evict_loop_length
          rw [h.max_two]; omega
        refine { max_two := h.max_two
                 key_nodup := ?_
                 count := ?_
                 sorted := ?_
                 stamps_lt := ?_
                 size_ok := ?_
                 active_last := ?_ }
        · simp only [cache_names]
          rw [List.map_append, List.nodup_append]
          refine ⟨(h.key_nodup).sublist (hsub.map _), by simp, ?_⟩
          intro a ha hb
          simp only [List.mem_map] at ha
          obtain ⟨x, hx, rfl⟩ := ha
          simp only [List.map_cons, List.map_nil, List.mem_singleton] at hb
          exact hnot_mem x (hsub.mem hx) hb
        · rw [List.length_append]
          simp only [List.length_singleton]
          omega
        · dsimp only
          rw [List.pairwise_append]
          refine ⟨(h.sorted).sublist hsub, by simp, ?_⟩
          intro a ha b hb
          simp only [List.mem_singleton] at hb
          subst hb
          exact h.stamps_lt a (hsub.mem ha)
        · dsimp only
          intro x hx
          rcases List.mem_append.mp hx with hx1 | hx1
          · exact Nat.lt_succ_of_lt (h.stamps_lt x (hsub.mem hx1))
          · simp only [List.mem_singleton] at hx1
            subst hx1
            exact Nat.lt_succ_self _
        · dsimp only
          intro x hx
          rcases List.mem_append.mp hx with hx1 | hx1
          · exact h.size_ok x (hsub.mem hx1)
          · simp only [List.mem_singleton] at hx1
            subst hx1
            unfold _load_model_from_file
            have hsz := compat_size_le m free name p hfind hc
            simpa using Nat.mul_le_mul_right 1024 hsz
        · intro n hn
          dsimp only at hn
          obtain rfl : name = n := by simpa using hn
          exact ⟨evict_loop m.loaded_models m.max_loaded_models,
            { name := name
              data := _load_model_from_file p.2 m.load_counter
              last_used := m.clock, inserted_at := m.clock }, rfl, rfl, rfl⟩

theorem inv_step {m : ModelManager} (h : CacheInv m) (op : MMOp) :
    CacheInv (mm_step m op) := by
  cases op with
  | load free name => exact inv_load h free name
  | unload => exact inv_unload h
  | clean => exact inv_cleanup h

theorem inv_init : CacheInv (mk_model_manager 200 "medium") := by
  refine { max_two := rfl
           key_nodup := by simp [cache_names, mk_model_manager]
           count := by simp [mk_model_manager]
           sorted := by simp [mk_model_manager]
           stamps_lt := by simp [mk_model_manager]
           size_ok := by simp [mk_model_manager]
           active_last := by intro n hn; simp [mk_model_manager] at hn }

theorem inv_reachable {m : ModelManager} (h : Reachable m) : CacheInv m := by
  obtain ⟨ops, rfl⟩ := h
  unfold run_ops
  have hfold : ∀ (l : List MMOp) (s : ModelManager), CacheInv s →
      CacheInv (l.foldl mm_step s) := by
    intro l
    induction l with
    | nil => intro s hs; exact hs
    | cons op rest ih => intro s hs; exact ih _ (inv_step hs op)
  exact hfold ops _ inv_init

/-- C3: in every manager state reachable from a fresh default manager, the
loaded-model cache holds at most max_loaded_models entries and at most one
entry per distinct model name, and _add_to_cache establishes the count
bound by evicting before the new entry is appended: the appended cache
also satisfies the bound for every entry. -/
theorem c3_cache_count_bound (m : ModelManager) (hR : Reachable m) :
    m.loaded_models.length ≤ m.max_loaded_models
    ∧ (cache_names m).Nodup
    ∧ ∀ entry : CacheEntry,
        (_add_to_cache m entry).loaded_models.length
          ≤ m.max_loaded_models := by
  have h := inv_reachable hR
  refine ⟨h.count, h.key_nodup, ?_⟩
  intro entry
  unfold _add_to_cache
  have hev := evict_loop_length m.loaded_models m.max_loaded_models
    (by rw [h.max_two]; omega)
  rw [List.length_append]
  simp only [List.length_singleton]
  omega

/-- Witness for c3_cache_count_bound: the bound at the reachable state after
three loads, with the insertion bound instantiated at a concrete entry. -/
theorem c3_witness :
    (run_ops [MMOp.load 300000 "tinyllama-pico",
        MMOp.load 300000 "microllama",
        MMOp.load 300000 "vad-micro"]).loaded_models.length
      ≤ (run_ops [MMOp.load 300000 "tinyllama-pico",
          MMOp.load 300000 "microllama",
          MMOp.load 300000 "vad-micro"]).max_loaded_models
    ∧ (cache_names (run_ops [MMOp.load 300000 "tinyllama-pico",
        MMOp.load 300000 "microllama",
        MMOp.load 300000 "vad-micro"])).Nodup
    ∧ (_add_to_cache (run_ops [MMOp.load 300000 "tinyllama-pico",
          MMOp.load 300000 "microllama",
          MMOp.load 300000 "vad-micro"])
        { name := "wake-word-tiny"
          data := _load_model_from_file
            { name := "wake-word-tiny", size_kb := 8, type := "wake_word",
              quantization := "4bit", min_memory_kb := 20,
              performance_tier := "low",
              capabilities := ["wake_word_detection"],
              file_path := "models/wake_word_tiny.bin" } 9
          last_used := 9, inserted_at := 9 }).loaded_models.length
      ≤ (run_ops [MMOp.load 300000 "tinyllama-pico",
          MMOp.load 300000 "microllama",
          MMOp.load 300000 "vad-micro"]).max_loaded_models := by
  have h := c3_cache_count_bound _
    (⟨[MMOp.load 300000 "tinyllama-pico", MMOp.load 300000 "microllama",
       MMOp.load 300000 "vad-micro"], rfl⟩)
  exact ⟨h.1, h.2.1, h.2.2 _⟩

/-- C2 as amended: the cache enforces only an entry-count bound (evicting
before insertion); combined with the per-model size check at load time this
bounds the resident weights bytes of every reachable state by
max_loaded_models x max_model_size KB; no configured byte budget over the
resident sum exists in the code. -/
theorem c2_amended_byte_bound (m : ModelManager) (hR : Reachable m) :
    resident_bytes m ≤ m.max_loaded_models * (m.max_model_size * 1024) := by
  have h := inv_reachable hR
  unfold resident_bytes
  have hb : ∀ b ∈ m.loaded_models.map (fun e => e.data.weights_len),
      b ≤ m.max_model_size * 1024 := by
    intro b hbm
    simp only [List.mem_map] at hbm
    obtain ⟨e, he, rfl⟩ := hbm
    exact h.size_ok e he
  calc (m.loaded_models.map (fun e => e.data.weights_len)).sum
      ≤ (m.loaded_models.map (fun e => e.data.weights_len)).length
          • (m.max_model_size * 1024) := List.sum_le_card_nsmul _ _ hb
    _ = m.loaded_models.length * (m.max_model_size * 1024) := by
        rw [List.length_map, smul_eq_mul]
    _ ≤ m.max_loaded_models * (m.max_model_size * 1024) :=
        Nat.mul_le_mul_right _ h.count

/-- Witness for c2_amended_byte_bound at the state holding tinyllama-pico
and microllama. -/
theorem c2_witness :
    resident_bytes (run_ops [MMOp.load 300000 "tinyllama-pico",
        MMOp.load 300000 "microllama"])
      ≤ (run_ops [MMOp.load 300000 "tinyllama-pico",
          MMOp.load 300000 "microllama"]).max_loaded_models
        * ((run_ops [MMOp.load 300000 "tinyllama-pico",
            MMOp.load 300000 "microllama"]).max_model_size * 1024) :=
  c2_amended_byte_bound _
    ⟨[MMOp.load 300000 "tinyllama-pico", MMOp.load 300000 "microllama"], rfl⟩

/-- C4: in every reachable state, a compatible load request for a name
resident in the cache leaves that name as the most-recently-used (last)
cache entry on return; and a compatible load request for a non-resident
name when the cache is full evicts exactly the front entry, whose
last-used stamp is minimal among all entries (ties, which the strictly
increasing stamps rule out, would fall to the earliest inserted). -/
theorem c4_lru_policy (m : ModelManager) (hR : Reachable m) (free : Nat)
    (name : String)
    (hc : (check_model_compatibility m free name).compatible = true) :
    (name ∈ cache_names m →
      ∃ l e, (load_model m free name).2.loaded_models = l ++ [e]
        ∧ e.name = name)
    ∧ (name ∉ cache_names m →
        m.loaded_models.length = m.max_loaded_models →
        ∃ ev tl, m.loaded_models = ev :: tl
          ∧ cache_names (load_model m free name).2
              = tl.map (fun x => x.name) ++ [name]
          ∧ ∀ x ∈ tl, ev.last_used ≤ x.last_used
            ∧ (ev.last_used = x.last_used →
                ev.inserted_at ≤ x.inserted_at)) := by
  have h := inv_reachable hR
  constructor
  · intro hmem
    by_cases hs : m.active_model = some name
    · rw [load_model_same m free name hs]
      obtain ⟨l, e, hle, hen, -⟩ := h.active_last name hs
      exact ⟨l, e, hle, hen⟩
    · have hex : ∃ e ∈ m.loaded_models, e.name = name := by
        simp only [cache_names, List.mem_map] at hmem
        obtain ⟨e, he, heq⟩ := hmem
        exact ⟨e, he, heq⟩
      obtain ⟨e0, he0, he0n⟩ := hex
      have hfs : (m.loaded_models.find? (fun x => x.name == name)).isSome := by
        rw [List.find?_isSome]
        exact ⟨e0, he0, by simp [he0n]⟩
      obtain ⟨e, hhit⟩ := Option.isSome_iff_exists.mp hfs
      rw [load_model_hit m free name e hs hc hhit]
      refine ⟨_, _, rfl, ?_⟩
      have := List.find?_some hhit
      simpa using this
  · intro hnot hfull
    cases hcache : m.loaded_models with
    | nil =>
        rw [hcache] at hfull
        rw [h.max_two] at hfull
        simp at hfull
    | cons ev tl =>
      have hmiss : m.loaded_models.find? (fun x => x.name == name)
          = none := by
        rw [List.find?_eq_none]
        intro x hx
        simp only [beq_iff_eq, decide_eq_true_eq]
        intro heq
        exact hnot (by
          simp only [cache_names, List.mem_map]
          exact ⟨x, hx, heq⟩)
      have hs : m.active_model ≠ some name := by
        intro hsome
        obtain ⟨l, e, hle, hen, -⟩ := h.active_last name hsome
        exact hnot (by
          simp only [cache_names, List.mem_map]
          exact ⟨e, by rw [hle]; simp, hen⟩)
      obtain ⟨p, hfind⟩ := compat_found m free name hc
      refine ⟨ev, tl, rfl, ?_, ?_⟩
      · rw [load_model_miss m free name p hs hc hfind hmiss]
        simp only [cache_names]
        rw [evict_loop_full m.loaded_models m.max_loaded_models hfull,
          hcache, List.tail_cons, List.map_append]
        rfl
      · intro x hx
        have hpair := h.sorted
        rw [hcache] at hpair
        have hlt := (List.pairwise_cons.mp hpair).1 x hx
        exact ⟨Nat.le_of_lt hlt, fun heq => absurd heq (Nat.ne_of_lt hlt)⟩

/-- Witness for c4_lru_policy: from the reachable state caching
tinyllama-pico then microllama, a hit on tinyllama-pico bumps it to the
most-recently-used end, and a miss on vad-micro with the cache full evicts
the front entry, whose stamp is minimal. -/
theorem c4_witness :
    (∃ l e, (load_model (run_ops [MMOp.load 300000 "tinyllama-pico",
        MMOp.load 300000 "microllama"]) 300000
          "tinyllama-pico").2.loaded_models = l ++ [e]
      ∧ e.name = "tinyllama-pico")
    ∧ (∃ ev tl, (run_ops [MMOp.load 300000 "tinyllama-pico",
          MMOp.load 300000 "microllama"]).loaded_models = ev :: tl
        ∧ cache_names (load_model (run_ops
            [MMOp.load 300000 "tinyllama-pico",
             MMOp.load 300000 "microllama"]) 300000 "vad-micro").2
            = tl.map (fun x => x.name) ++ ["vad-micro"]
        ∧ ∀ x ∈ tl, ev.last_used ≤ x.last_used
          ∧ (ev.last_used = x.last_used →
              ev.inserted_at ≤ x.inserted_at)) := by
  constructor
  · exact (c4_lru_policy _
      ⟨[MMOp.load 300000 "tinyllama-pico", MMOp.load 300000 "microllama"],
        rfl⟩ 300000 "tinyllama-pico" (by decide)).1 (by decide)
  · exact (c4_lru_policy _
      ⟨[MMOp.load 300000 "tinyllama-pico", MMOp.load 300000 "microllama"],
        rfl⟩ 300000 "vad-micro" (by decide)).2 (by decide) (by decide)

/-- C5 as amended: _unload_current_model only deactivates the active model
and leaves the cache entries resident, so a subsequent successful load of
the just-unloaded name is served from the cache: the loader invocation
count is unchanged and the active data is the same object as before the
unload, not a fresh load; unloading when no model is active is a no-op
leaving the whole state unchanged. -/
theorem c5_amended (m : ModelManager) (hR : Reachable m) (free : Nat)
    (name : String) (hact : m.active_model = some name) :
    (_unload_current_model m).active_model = none
    ∧ ((load_model (_unload_current_model m) free name).1 = true →
        (load_model (_unload_current_model m) free name).2.load_counter
            = m.load_counter
        ∧ (load_model
            (_unload_current_model m) free name).2.active_model_data
            = m.active_model_data)
    ∧ (∀ m2 : ModelManager, m2.active_model = none →
        _unload_current_model m2 = m2) := by
  have h := inv_reachable hR
  obtain ⟨l, e, hle, hen, hdata⟩ := h.active_last name hact
  have hu := unload_preserves m
  have hu_act := unload_active m
  refine ⟨hu_act, ?_, ?_⟩
  · intro hsucc
    have hs : (_unload_current_model m).active_model ≠ some name := by
      rw [hu_act]; simp
    have hlnone : l.find? (fun x => x.name == name) = none := by
      rw [List.find?_eq_none]
      intro x hx
      have hnd := h.key_nodup
      rw [cache_names, hle, List.map_append] at hnd
      have hdisj := (List.nodup_append.mp hnd).2.2
      simp only [beq_iff_eq, decide_eq_true_eq]
      intro heq
      exact hdisj (List.mem_map_of_mem _ hx) (by simp [heq, hen])
    have hfind_cache : (_unload_current_model m).loaded_models.find?
        (fun x => x.name == name) = some e := by
      rw [hu.1, hle, List.find?_append, hlnone]
      simp [hen]
    cases hcomp : (check_model_compatibility
        (_unload_current_model m) free name).compatible with
    | false =>
        rw [load_model_incompat _ free name hs hcomp] at hsucc
        simp at hsucc
    | true =>
        rw [load_model_hit _ free name e hs hcomp hfind_cache]
        constructor
        · exact hu.2.2.2.2
        · rw [hdata]
  · intro m2 hm2
    unfold _unload_current_model
    rw [if_neg (by simp [hm2])]

/-- Witness for c5_amended: the reachable state whose active model is
wake-word-tiny, reloaded after an unload with 100000 free bytes; the no-op
part instantiated at the fresh manager. -/
theorem c5_witness :
    (_unload_current_model (run_ops
        [MMOp.load 100000 "wake-word-tiny"])).active_model = none
    ∧ ((load_model (_unload_current_model (run_ops
          [MMOp.load 100000 "wake-word-tiny"])) 100000
        "wake-word-tiny").2.load_counter
      = (run_ops [MMOp.load 100000 "wake-word-tiny"]).load_counter
      ∧ (load_model (_unload_current_model (run_ops
            [MMOp.load 100000 "wake-word-tiny"])) 100000
          "wake-word-tiny").2.active_model_data
        = (run_ops [MMOp.load 100000 "wake-word-tiny"]).active_model_data)
    ∧ _unload_current_model (mk_model_manager 200 "medium")
        = mk_model_manager 200 "medium" := by
  have h := c5_amended _ ⟨[MMOp.load 100000 "wake-word-tiny"], rfl⟩
    100000 "wake-word-tiny" (by decide)
  exact ⟨h.1, h.2.1 (by decide), h.2.2 (mk_model_manager 200 "medium")
    (by decide)⟩

/-
  Claim proofs: inference engine.
-/

/-- C10: a None or empty audio buffer makes process_audio return None
before the try block: no stage runs, the state (in particular
total_inferences, total_processing_time and memory_peak) is returned
untouched. -/
theorem c10_empty_input (st : StageFns) (e : InferenceEngine) :
    process_audio st e none = (none, e)
    ∧ process_audio st e (some []) = (none, e)
    ∧ (process_audio st e none).2.total_inferences = e.total_inferences
    ∧ (process_audio st e (some [])).2.total_inferences = e.total_inferences
    ∧ (process_audio st e (some [])).2.total_processing_time
        = e.total_processing_time
    ∧ (process_audio st e (some [])).2.memory_peak = e.memory_peak := by
  exact ⟨rfl, rfl, rfl, rfl, rfl, rfl⟩

/-- The try-block body never touches the running statistics: they are
updated only by the finally clause. -/
theorem body_stats (st : StageFns) (e : InferenceEngine)
    (buf : List Int) :
    (process_audio_body st e buf).engine.total_inferences
        = e.total_inferences
    ∧ (process_audio_body st e buf).engine.total_processing_time
        = e.total_processing_time
    ∧ (process_audio_body st e buf).engine.memory_peak = e.memory_peak := by
  unfold process_audio_body
  rcases st.vad buf with msg | vr
  · exact ⟨rfl, rfl, rfl⟩
  · dsimp only
    split
    · exact ⟨rfl, rfl, rfl⟩
    · rcases st.wake_word buf with msg | wr
      · exact ⟨rfl, rfl, rfl⟩
      · dsimp only
        split
        · exact ⟨rfl, rfl, rfl⟩
        · rcases st.classify buf with msg | copt
          · exact ⟨rfl, rfl, rfl⟩
          · dsimp only
            rcases copt with _ | cr
            · exact ⟨rfl, rfl, rfl⟩
            · dsimp only
              split
              · rcases st.respond cr.command with msg | rr
                · exact ⟨rfl, rfl, rfl⟩
                · exact ⟨rfl, rfl, rfl⟩
              · exact ⟨rfl, rfl, rfl⟩

/-- The outcome of the try-block body depends only on the stages and the
buffer, never on the engine state it threads through. -/
theorem body_outcome_independent (st : StageFns) (e1 e2 : InferenceEngine)
    (buf : List Int) :
    (process_audio_body st e1 buf).outcome
      = (process_audio_body st e2 buf).outcome := by
  unfold process_audio_body
  rcases st.vad buf with msg | vr
  · rfl
  · dsimp only
    split
    · rfl
    · rcases st.wake_word buf with msg | wr
      · rfl
      · dsimp only
        split
        · rfl
        · rcases st.classify buf with msg | copt
          · rfl
          · dsimp only
            rcases copt with _ | cr
            · rfl
            · dsimp only
              split
              · rcases st.respond cr.command with msg | rr
                · rfl
                · rfl
              · rfl

/-- The first component of process_audio depends only on the stages and the
input, never on the engine state. -/
theorem process_audio_fst_independent (st : StageFns)
    (e1 e2 : InferenceEngine) (input : Option (List Int)) :
    (process_audio st e1 input).1 = (process_audio st e2 input).1 := by
  cases input with
  | none => rfl
  | some buf =>
    by_cases hb : buf.length = 0
    · simp [process_audio, hb]
    · simp only [process_audio, hb, if_false, ite_false]
      rw [body_outcome_independent st e1 e2 buf]

/-- C8: whenever the try-block body of process_audio raises an error (any
stage returning Except.error), the call does not propagate it: it returns
the terminal error result (success false, result_type error) carrying the
message, the finally clause still clears processing_active and updates the
running statistics, and subsequent calls are unaffected: the result of any
later call from the post-state equals the result from the pre-state. -/
theorem c8_error_containment (st : StageFns) (e : InferenceEngine)
    (buf : List Int) (msg : String) (hne : ¬ buf.length = 0)
    (herr : (process_audio_body st e buf).outcome = .error msg) :
    (process_audio st e (some buf)).1
      = some (_create_result false "error" (.error msg) 0 0 0 "none")
    ∧ (process_audio st e (some buf)).2
      = _update_stats
          { (process_audio_body st e buf).engine with
              processing_active := false }
    ∧ (process_audio st e (some buf)).2.processing_active = false
    ∧ (process_audio st e (some buf)).2.total_inferences
        = e.total_inferences + 1
    ∧ ∀ input : Option (List Int),
        (process_audio st (process_audio st e (some buf)).2 input).1
          = (process_audio st e input).1 := by
  have hpa : process_audio st e (some buf)
      = (some (_create_result false "error" (.error msg) 0 0 0 "none"),
         _update_stats
           { (process_audio_body st e buf).engine with
               processing_active := false }) := by
    simp only [process_audio, hne, if_false, ite_false, herr]
  refine ⟨by rw [hpa], by rw [hpa], by rw [hpa]; rfl, ?_, ?_⟩
  · rw [hpa]
    show (process_audio_body st e buf).engine.total_inferences + 1
      = e.total_inferences + 1
    rw [(body_stats st e buf).1]
  · intro input
    exact process_audio_fst_independent st _ e input

/-- Stage set every one of whose stages is total except the VAD stage,
which raises; used to exhibit a raising stage for the error-containment
claim. -/
noncomputable def raising_stages : StageFns :=
  { vad := fun _ => .error "boom"
    wake_word := fun buf => .ok (_run_wake_word_detection buf)
    classify := fun buf => .ok (_run_command_classification buf)
    respond := fun command => .ok (_generate_response command) }

/-- Witness for c8_error_containment: the raising VAD stage on the
one-sample buffer, with the later-call conjunct instantiated at a concrete
second buffer. -/
theorem c8_witness :
    (process_audio raising_stages (mk_inference_engine 128 "medium")
        (some [1])).1
      = some (_create_result false "error" (.error "boom") 0 0 0 "none")
    ∧ (process_audio raising_stages (mk_inference_engine 128 "medium")
        (some [1])).2.processing_active = false
    ∧ (process_audio raising_stages (mk_inference_engine 128 "medium")
        (some [1])).2.total_inferences
      = (mk_inference_engine 128 "medium").total_inferences + 1
    ∧ (process_audio raising_stages
        (process_audio raising_stages (mk_inference_engine 128 "medium")
          (some [1])).2 (some [2, 3])).1
      = (process_audio raising_stages (mk_inference_engine 128 "medium")
          (some [2, 3])).1 := by
  have h := c8_error_containment raising_stages
    (mk_inference_engine 128 "medium") [1] "boom" (by simp) rfl
  exact ⟨h.1, h.2.2.1, h.2.2.2.1, h.2.2.2.2 (some [2, 3])⟩

/-- C6: whenever the VAD stage reports no voice activity on a non-empty
buffer, process_audio returns immediately with the VAD-negative result
(result_type vad, data voice_detected false) carrying the VAD confidence;
only the VAD stage runs (no wake-word, classification or response stage),
and since no stage of the source borrows any model, any model-manager
state is carried through the call untouched. -/
theorem c6_vad_short_circuit (e : InferenceEngine) (buf : List Int)
    (hne : ¬ buf.length = 0)
    (hvad : (_run_vad buf).voice_detected = false) :
    process_audio real_stages e (some buf)
      = (some (_create_result true "vad" (.vad false)
          (_run_vad buf).confidence 0 0 "vad"),
         _update_stats { e with processing_active := false })
    ∧ (process_audio_body real_stages e buf).stages_run
        = ["voice_activity_detection"]
    ∧ ∀ mm : ModelManager,
        (process_audio_system real_stages e mm (some buf)).2 = mm := by
  have hbody : process_audio_body real_stages e buf
      = { engine := { e with processing_active := true }
          outcome := .ok (_create_result true "vad" (.vad false)
            (_run_vad buf).confidence 0 0 "vad")
          stages_run := ["voice_activity_detection"] } := by
    simp only [process_audio_body, real_stages, hvad, Bool.not_false,
      if_true, ite_true]
  refine ⟨?_, by rw [hbody], fun mm => rfl⟩
  simp only [process_audio, hne, if_false, ite_false, hbody]

/-- Witness for c6_vad_short_circuit: the all-silence 10-sample buffer,
on which the VAD stage reports no voice, with the manager conjunct
instantiated at a fresh default manager. -/
theorem c6_witness :
    process_audio real_stages (mk_inference_engine 128 "medium")
        (some (List.replicate 10 (0 : Int)))
      = (some (_create_result true "vad" (.vad false)
          (_run_vad (List.replicate 10 (0 : Int))).confidence 0 0 "vad"),
         _update_stats { mk_inference_engine 128 "medium" with
           processing_active := false })
    ∧ (process_audio_body real_stages (mk_inference_engine 128 "medium")
        (List.replicate 10 (0 : Int))).stages_run
        = ["voice_activity_detection"]
    ∧ (process_audio_system real_stages (mk_inference_engine 128 "medium")
        (mk_model_manager 200 "medium")
        (some (List.replicate 10 (0 : Int)))).2
      = mk_model_manager 200 "medium" := by
  have hvad : (_run_vad (List.replicate 10 (0 : Int))).voice_detected
      = false := by
    have hsum : ((List.replicate 10 (0 : Int)).map
        (fun sample => ((sample : ℝ)) * sample)).sum = 0 := by simp
    unfold _run_vad
    rw [if_neg (by simp)]
    simp only [hsum]
    norm_num
  have h := c6_vad_short_circuit (mk_inference_engine 128 "medium")
    (List.replicate 10 (0 : Int)) (by simp) hvad
  exact ⟨h.1, h.2.1, h.2.2 (mk_model_manager 200 "medium")⟩

theorem abs_list_sum_nonneg (l : List ℝ) :
    0 ≤ (l.map (fun f => |f|)).sum := by
  apply List.sum_nonneg
  intro x hx
  simp only [List.mem_map] at hx
  obtain ⟨y, -, rfl⟩ := hx
  exact abs_nonneg y

theorem fmod_nonneg (x y : ℝ) (hy : 0 < y) : 0 ≤ fmod x y := by
  unfold fmod
  have h1 : ((⌊x / y⌋ : ℤ) : ℝ) ≤ x / y := Int.floor_le _
  have h2 := mul_le_mul_of_nonneg_left h1 (le_of_lt hy)
  have h3 : y * (x / y) = x := by field_simp
  linarith

theorem engine_scores_sum (i : Nat) (hi : i < 10) (c : ℝ) :
    (((engine_commands.enum.map (fun p =>
        (p.2, if p.1 = i then c
              else (1 - c) / ((engine_commands.length : ℝ) - 1)))).map
      (fun p => p.2)).sum) = 1 := by
  interval_cases i <;>
    (norm_num [engine_commands, List.enum, List.enumFrom]; ring_nf)

theorem engine_scores_mem_max (i : Nat) (hi : i < 10) (c d : ℝ)
    (hdc : d < c) :
    ((engine_commands.getD i "", c) ∈ engine_commands.enum.map (fun p =>
        (p.2, if p.1 = i then c else d)))
    ∧ ∀ q ∈ engine_commands.enum.map (fun p =>
        (p.2, if p.1 = i then c else d)),
        q.1 ≠ engine_commands.getD i "" → q.2 < c := by
  constructor
  · interval_cases i <;> norm_num [engine_commands, List.enum, List.enumFrom]
  · intro q hq hne
    revert hne
    interval_cases i <;>
      (norm_num [engine_commands, List.enum, List.enumFrom] at hq
       rcases hq with rfl | rfl | rfl | rfl | rfl | rfl | rfl | rfl | rfl
         | rfl <;>
        intro hne <;>
        first
        | exact absurd rfl hne
        | exact hdc)

/-- C7 as amended: for every input of length at least 50, the engine
classification stage returns a verdict whose all_scores distribution sums
to exactly 1.0 (hence at most 1.0) and whose returned command carries the
strictly largest score, so it is the argmax and no ties arise (shorter
inputs yield no verdict).  The _process_classification of the manager violates
the original claim, as the counterexample shows. -/
theorem c7_amended (buf : List Int) (hlen : 50 ≤ buf.length) :
    ∃ r : ClassifyResult, _run_command_classification buf = some r
      ∧ ((r.all_scores.map (fun p => p.2)).sum = 1)
      ∧ ((r.all_scores.map (fun p => p.2)).sum ≤ 1)
      ∧ ((r.command, r.confidence) ∈ r.all_scores)
      ∧ ∀ q ∈ r.all_scores, q.1 ≠ r.command → q.2 < r.confidence := by
  unfold _run_command_classification
  rw [if_neg (by omega)]
  refine ⟨_, rfl, ?_, ?_, ?_, ?_⟩ <;> dsimp only
  all_goals {
    have hfs0 : (0:ℝ) ≤ ((_extract_audio_features buf).map
        (fun f => |f|)).sum := abs_list_sum_nonneg _
    have hc_lo : (0.6 : ℝ) ≤ min (0.6 + fmod (((_extract_audio_features
        buf).map (fun f => |f|)).sum) 100 / 250) 0.95 := by
      apply le_min
      · have := fmod_nonneg (((_extract_audio_features buf).map
          (fun f => |f|)).sum) 100 (by norm_num)
        linarith
      · norm_num
    have hi : (⌊((_extract_audio_features buf).map
        (fun f => |f|)).sum⌋.toNat % engine_commands.length) < 10 := by
      have hlen10 : engine_commands.length = 10 := by
        norm_num [engine_commands]
      rw [hlen10]
      exact Nat.mod_lt _ (by norm_num)
    have hdc : (1 - min (0.6 + fmod (((_extract_audio_features buf).map
          (fun f => |f|)).sum) 100 / 250) 0.95)
          / ((engine_commands.length : ℝ) - 1)
        < min (0.6 + fmod (((_extract_audio_features buf).map
          (fun f => |f|)).sum) 100 / 250) 0.95 := by
      have h10 : ((engine_commands.length : ℝ) - 1) = 9 := by
        norm_num [engine_commands]
      rw [h10, div_lt_iff₀ (by norm_num : (0:ℝ) < 9)]
      nlinarith [hc_lo]
    first
    | exact engine_scores_sum _ hi _
    | exact le_of_eq (engine_scores_sum _ hi _)
    | exact (engine_scores_mem_max _ hi _ _ hdc).1
    | exact (engine_scores_mem_max _ hi _ _ hdc).2 }

/-- Witness for c7_amended: the 50-sample constant buffer. -/
theorem c7_witness :
    ∃ r : ClassifyResult,
      _run_command_classification (List.replicate 50 (1 : Int)) = some r
      ∧ ((r.all_scores.map (fun p => p.2)).sum = 1)
      ∧ ((r.all_scores.map (fun p => p.2)).sum ≤ 1)
      ∧ ((r.command, r.confidence) ∈ r.all_scores)
      ∧ ∀ q ∈ r.all_scores, q.1 ≠ r.command → q.2 < r.confidence :=
  c7_amended (List.replicate 50 (1 : Int)) (by simp)
